import Mathlib

/-!
Shallow embedding of `src/decoder/my_yolo.py` (KittiBox decoder / loss /
evaluation pipeline).  Tensors are modelled as functions out of `Fin` types,
or as row-major flat lists of reals where reshape/transpose layout semantics
matter.  Machine floats are modelled as real numbers.  A TensorFlow reshape
whose element count does not match the requested shape is a graph-construction
error; we model it with `Option`.
-/

namespace KittiBox

/-- The `hypes['rezoom_change_loss']` setting: the string `'center'`, the
string `'iou'`, or a falsy value (lines 263-277 of `my_yolo.py` assert the
value is falsy when it is neither string). -/
inductive RezoomChangeLoss
  | center
  | iou
  | falsy
deriving DecidableEq

/-- Phase of the computation graph, `'train'` or `'val'`. -/
inductive Phase
  | train
  | val
deriving DecidableEq

/-- The hyperparameter dictionary `hypes`, restricted to the keys read by
`my_yolo.py`.  `head0`/`head1` are `hypes['solver']['head_weights'][0/1]`. -/
structure Hypes where
  grid_width : ℕ
  grid_height : ℕ
  batch_size : ℕ
  rnn_len : ℕ
  num_classes : ℕ
  cnn_channels : ℕ
  lstm_size : ℕ
  early_feat_channels : ℕ
  rezoom_w_coords : List ℝ
  rezoom_h_coords : List ℝ
  rezoom_conf_scale : ℝ
  use_rezoom : Bool
  reregress : Bool
  use_lstm : Bool
  rezoom_change_loss : RezoomChangeLoss
  head0 : ℝ
  head1 : ℝ
  hungarian_iou : ℝ

/-- `outer_size = grid_size * batch_size` (lines 38-39, 162-163, 225-226). -/
def outerSize (H : Hypes) : ℕ := H.grid_width * H.grid_height * H.batch_size

/-- Number of rezoom interpolation offsets,
`len(w_offsets) * len(h_offsets)` (line 77). -/
def numOffsets (H : Hypes) : ℕ :=
  H.rezoom_w_coords.length * H.rezoom_h_coords.length

/-! ## Matcher (lines 233-241) -/

/-- Output of the matcher: permuted classes, permuted ground-truth boxes and
presence mask, as consumed by the loss from line 242 on.  The slot dimension
is 1 (the only value the reshapes of `my_yolo.py` admit, see the decoder
shape analysis), so it is elided. -/
structure MatchOut (H : Hypes) where
  classes : Fin (outerSize H) → ℝ
  perm_truth : Fin (outerSize H) → Fin 4 → ℝ
  pred_mask : Fin (outerSize H) → ℝ

/-- The trivial identity assignment used when `use_lstm` is false
(lines 237-241): `classes = flags`, `perm_truth = boxes`, and the mask is the
indicator of `classes > 0`. -/
noncomputable def singleSlotMatch (H : Hypes)
    (flags : Fin (outerSize H) → ℝ)
    (boxes : Fin (outerSize H) → Fin 4 → ℝ) : MatchOut H where
  classes := flags
  perm_truth := boxes
  pred_mask := fun i => if 0 < flags i then 1 else 0

/-! ## Loss terms (lines 242-314) -/

/-- `tf.nn.sparse_softmax_cross_entropy_with_logits` on one row:
`log (sum_j exp logits_j) - logits_label`.  An out-of-range label is a
runtime error in TensorFlow; we return the log-sum-exp part alone in that
case (it is never reached by the theorems below). -/
noncomputable def sparseSoftmaxCrossEntropy (C : ℕ) (logits : Fin C → ℝ)
    (label : ℕ) : ℝ :=
  Real.log (∑ j, Real.exp (logits j)) -
    (if h : label < C then logits ⟨label, h⟩ else 0)

/-- Modelled from the spec: `train_utils.to_x1y1x2y2` converts a box from
center format `(cx, cy, w, h)` to corner format `(x1, y1, x2, y2)`
(spec section 6, coordinate conversion between center- and corner-format). -/
noncomputable def to_x1y1x2y2 (b : Fin 4 → ℝ) : ℝ × ℝ × ℝ × ℝ :=
  (b 0 - b 2 / 2, b 1 - b 3 / 2, b 0 + b 2 / 2, b 1 + b 3 / 2)

/-- Modelled from the spec: `train_utils.iou` on two corner-format boxes,
intersection area over union area (spec sections 4.4 and 6). -/
noncomputable def iouVal (a b : ℝ × ℝ × ℝ × ℝ) : ℝ :=
  let iw := max 0 (min a.2.2.1 b.2.2.1 - max a.1 b.1)
  let ih := max 0 (min a.2.2.2 b.2.2.2 - max a.2.1 b.2.1)
  let inter := iw * ih
  let areaA := (a.2.2.1 - a.1) * (a.2.2.2 - a.2.1)
  let areaB := (b.2.2.1 - b.1) * (b.2.2.2 - b.2.1)
  inter / (areaA + areaB - inter)

/-- The binary `inside` target of the delta-confidence loss (lines 263-278),
for one cell. -/
noncomputable def insideTarget (H : Hypes) (m : MatchOut H)
    (pred_boxes : Fin (outerSize H) → Fin 4 → ℝ) (i : Fin (outerSize H)) :
    ℕ :=
  match H.rezoom_change_loss with
  | RezoomChangeLoss.center =>
      let e0 := (m.perm_truth i 0 - pred_boxes i 0) / max (m.perm_truth i 2) 1
      let e1 := (m.perm_truth i 1 - pred_boxes i 1) / max (m.perm_truth i 3) 1
      if e0 ^ 2 + e1 ^ 2 < 0.2 ^ 2 ∧ 0 < m.classes i then 1 else 0
  | RezoomChangeLoss.iou =>
      if 0.5 < iouVal (to_x1y1x2y2 (pred_boxes i))
          (to_x1y1x2y2 (m.perm_truth i)) then 1 else 0
  | RezoomChangeLoss.falsy => if 0 < m.classes i then 1 else 0

/-- The classification loss (lines 242-257): sparse softmax cross entropy
against the target `1` iff the matched class is positive, summed, divided by
`outer_size`, times `head_weights[0]`. -/
noncomputable def confidencesLoss (H : Hypes) (m : MatchOut H)
    (pred_logits : Fin (outerSize H) → Fin H.num_classes → ℝ) : ℝ :=
  (∑ i, sparseSoftmaxCrossEntropy H.num_classes (pred_logits i)
    (if 0 < m.classes i then 1 else 0)) / (outerSize H : ℝ) * H.head0

/-- The base box-regression loss (lines 258-261):
`sum |perm_truth - pred_boxes * pred_mask| / outer_size * head_weights[1]`.
Note the mask multiplies only `pred_boxes`, not the whole difference. -/
noncomputable def baseBoxesLoss (H : Hypes) (m : MatchOut H)
    (pred_boxes : Fin (outerSize H) → Fin 4 → ℝ) : ℝ :=
  (∑ i, ∑ c, |m.perm_truth i c - pred_boxes i c * m.pred_mask i|) /
    (outerSize H : ℝ) * H.head1

/-- The delta-confidence loss (lines 280-284): cross entropy of the delta
logits against the `inside` target, divided by `outer_size`, times
`head_weights[0] * 0.1`. -/
noncomputable def deltaConfsLoss (H : Hypes) (m : MatchOut H)
    (pred_boxes : Fin (outerSize H) → Fin 4 → ℝ)
    (pred_confs_deltas : Fin (outerSize H) → Fin H.num_classes → ℝ) : ℝ :=
  (∑ i, sparseSoftmaxCrossEntropy H.num_classes (pred_confs_deltas i)
    (insideTarget H m pred_boxes i)) / (outerSize H : ℝ) * H.head0 * 0.1

/-- The re-regression loss (lines 288-295): squared masked residual of the
corrected box, each component clipped at `10 ** 2`, summed, divided by
`outer_size`, times `head_weights[1] * 0.03`. -/
noncomputable def deltaBoxesLoss (H : Hypes) (m : MatchOut H)
    (pred_boxes : Fin (outerSize H) → Fin 4 → ℝ)
    (pred_boxes_deltas : Fin (outerSize H) → Fin 4 → ℝ) : ℝ :=
  (∑ i, ∑ c, min (((m.perm_truth i c -
      (pred_boxes i c + pred_boxes_deltas i c)) * m.pred_mask i) ^ 2)
      (10 ^ 2)) / (outerSize H : ℝ) * H.head1 * 0.03

/-- Lines 242-314 of `loss`, starting from the matcher output.  `extra` is
the state of the process-wide `'losses'` collection before
`tf.add_to_collection` (line 310); `total_loss` (line 312) sums it together
with the loss registered here.  Returns
`(total_loss, confidences_loss, boxes_loss)`. -/
noncomputable def lossFromMatch (H : Hypes) (m : MatchOut H)
    (pred_boxes : Fin (outerSize H) → Fin 4 → ℝ)
    (pred_logits : Fin (outerSize H) → Fin H.num_classes → ℝ)
    (pred_confs_deltas : Fin (outerSize H) → Fin H.num_classes → ℝ)
    (pred_boxes_deltas : Fin (outerSize H) → Fin 4 → ℝ)
    (extra : List ℝ) : ℝ × ℝ × ℝ :=
  let confidences_loss := confidencesLoss H m pred_logits
  let boxes_loss := baseBoxesLoss H m pred_boxes
  if H.use_rezoom then
    let loss1 := confidences_loss + boxes_loss +
      deltaConfsLoss H m pred_boxes pred_confs_deltas
    if H.reregress then
      let dbl := deltaBoxesLoss H m pred_boxes pred_boxes_deltas
      (extra.sum + (loss1 + dbl), confidences_loss, dbl)
    else
      (extra.sum + loss1, confidences_loss, boxes_loss)
  else
    (extra.sum + (confidences_loss + boxes_loss), confidences_loss,
      boxes_loss)

/-- The `loss` function (lines 209-314).  `hungarian` stands for the output
of the external `tf.user_ops.hungarian` primitive, used only when
`use_lstm` is true (lines 233-236); otherwise the trivial single-slot
matcher of lines 237-241 is used. -/
noncomputable def loss (H : Hypes) (hungarian : MatchOut H)
    (flags : Fin (outerSize H) → ℝ)
    (boxes : Fin (outerSize H) → Fin 4 → ℝ)
    (pred_boxes : Fin (outerSize H) → Fin 4 → ℝ)
    (pred_logits : Fin (outerSize H) → Fin H.num_classes → ℝ)
    (pred_confs_deltas : Fin (outerSize H) → Fin H.num_classes → ℝ)
    (pred_boxes_deltas : Fin (outerSize H) → Fin 4 → ℝ)
    (extra : List ℝ) : ℝ × ℝ × ℝ :=
  let m := if H.use_lstm then hungarian else singleSlotMatch H flags boxes
  lossFromMatch H m pred_boxes pred_logits pred_confs_deltas
    pred_boxes_deltas extra

/-! ## Flat row-major tensors

TensorFlow tensors are row-major in memory; `tf.reshape` reinterprets the
flat buffer (and is a construction-time error when the element count does
not match the requested shape), while `tf.transpose` permutes the layout.
We model a tensor as its flat buffer (`List ℝ`). -/

/-- Row-major decoding of a flat index into a 2-D index. -/
def decode2 (n m : ℕ) (p : Fin (n * m)) : Fin n × Fin m :=
  ⟨⟨p.1 / m, by
      have hm : 0 < m := by
        rcases Nat.eq_zero_or_pos m with rfl | hm
        · exact absurd p.2 (by simp)
        · exact hm
      exact (Nat.div_lt_iff_lt_mul hm).mpr p.2⟩,
   ⟨p.1 % m, Nat.mod_lt _ (by
      rcases Nat.eq_zero_or_pos m with rfl | hm
      · exact absurd p.2 (by simp)
      · exact hm)⟩⟩

/-- Row-major flat buffer of a 2-D tensor. -/
def flatten2 (n m : ℕ) (f : Fin n → Fin m → ℝ) : List ℝ :=
  (List.finRange (n * m)).map fun p => f (decode2 n m p).1 (decode2 n m p).2

/-- Row-major decoding of a flat index into a 3-D index. -/
def decode3 (d0 d1 d2 : ℕ) (p : Fin (d0 * (d1 * d2))) :
    Fin d0 × Fin d1 × Fin d2 :=
  ⟨(decode2 d0 (d1 * d2) p).1, decode2 d1 d2 (decode2 d0 (d1 * d2) p).2⟩

/-- Row-major flat buffer of a 3-D tensor. -/
def flatten3 (d0 d1 d2 : ℕ) (f : Fin d0 → Fin d1 → Fin d2 → ℝ) : List ℝ :=
  (List.finRange (d0 * (d1 * d2))).map fun p =>
    f (decode3 d0 d1 d2 p).1 (decode3 d0 d1 d2 p).2.1 (decode3 d0 d1 d2 p).2.2

/-- Row-major decoding of a flat index into a 4-D index. -/
def decode4 (d0 d1 d2 d3 : ℕ) (p : Fin (d0 * (d1 * (d2 * d3)))) :
    Fin d0 × Fin d1 × Fin d2 × Fin d3 :=
  ⟨(decode2 d0 (d1 * (d2 * d3)) p).1,
   (decode2 d1 (d2 * d3) (decode2 d0 (d1 * (d2 * d3)) p).2).1,
   decode2 d2 d3 (decode2 d1 (d2 * d3) (decode2 d0 (d1 * (d2 * d3)) p).2).2⟩

/-- Row-major flat buffer of a 4-D tensor. -/
def flatten4 (d0 d1 d2 d3 : ℕ) (f : Fin d0 → Fin d1 → Fin d2 → Fin d3 → ℝ) :
    List ℝ :=
  (List.finRange (d0 * (d1 * (d2 * d3)))).map fun p =>
    f (decode4 d0 d1 d2 d3 p).1 (decode4 d0 d1 d2 d3 p).2.1
      (decode4 d0 d1 d2 d3 p).2.2.1 (decode4 d0 d1 d2 d3 p).2.2.2

/-- `tf.reshape`: succeeds, leaving the flat buffer unchanged, exactly when
the element count matches the requested shape. -/
def reshape (l : List ℝ) (shape : List ℕ) : Option (List ℝ) :=
  if l.length = shape.prod then some l else none

/-- `tf.transpose(x, [1, 2, 0, 3])` on a flat buffer of shape
`[d0, d1, d2, d3]`: the output, of shape `[d1, d2, d0, d3]`, reads its entry
at position `(i, k, o, c)` from position `(o, i, k, c)` of the input
(line 58 of `my_yolo.py`). -/
def transpose_1203 (d0 d1 d2 d3 : ℕ) (l : List ℝ) : List ℝ :=
  (List.finRange (d1 * (d2 * (d0 * d3)))).map fun p =>
    l.getD ((((p.1 / d3 % d0) * d1 + p.1 / d3 / d0 / d2) * d2 +
      p.1 / d3 / d0 % d2) * d3 + p.1 % d3) 0

/-! ## The rezoom refiner (lines 19-127) -/

/-- The offset pair visited at position `o` of the
`for w_offset in w_offsets: for h_offset in h_offsets:` loop
(lines 41-47): `w`-major enumeration. -/
def offsetPair (ws hs : List ℝ) (o : Fin (ws.length * hs.length)) : ℝ × ℝ :=
  (ws.get (decode2 ws.length hs.length o).1,
   hs.get (decode2 ws.length hs.length o).2)

/-- `_rezoom` (lines 19-62).  `sample w h i k c` abstracts the composite of
the external `train_utils.bilinear_select` and `train_utils.interp`
primitives: the bilinear sample of channel `c` of the early feature map at
the center of predicted box `(i, k)` shifted by offset `(w, h)` (spec
section 4.2, steps 1-2).  The offset blocks are concatenated along axis 0
(the row-major buffer of shape
`[num_offsets, outer_size, rnn_len, channels]`), transposed by
`[1, 2, 0, 3]`, and reshaped to
`[outer_size, rnn_len, num_offsets * channels]` (a flat-buffer identity). -/
def rezoomList (ws hs : List ℝ) (n L ch : ℕ)
    (sample : ℝ → ℝ → Fin n → Fin L → Fin ch → ℝ) : List ℝ :=
  transpose_1203 (ws.length * hs.length) n L ch
    (flatten4 (ws.length * hs.length) n L ch fun o i k c =>
      sample (offsetPair ws hs o).1 (offsetPair ws hs o).2 i k c)

/-- The learned weights read by `decoder` via `tf.get_variable`
(lines 140-144, 178-182): the Overfeat projection `ip`, `box_ip` and
`conf_ip`. -/
structure DecWeights (cnn lstm C : ℕ) where
  ip : Fin cnn → Fin lstm → ℝ
  box_ip : Fin lstm → Fin 4 → ℝ
  conf_ip : Fin lstm → Fin C → ℝ

/-- The learned weights read by `apply_rezoom` (lines 89-101):
`delta_ip1%d`, `delta_ip2%d` and `delta_ip_boxes%d`, indexed by the slot
`k`.  The feature width `lstm + noff * effch` is the
`lstm_size + early_feat_channels * num_offsets` of line 87. -/
structure RezoomWeights (lstm effch noff C : ℕ) where
  ip1 : ℕ → Fin (lstm + noff * effch) → Fin 128 → ℝ
  conf2 : ℕ → Fin 128 → Fin C → ℝ
  boxes2 : ℕ → Fin 128 → Fin 4 → ℝ

/-- The random dropout draws of one forward pass (`tf.nn.dropout` keeps an
entry with probability 0.5 and rescales it; the realized multiplier for
each entry is collected here).  `raw` is the mask of line 176, `rez` of
line 82, `ip1 k` of line 94. -/
structure DropoutEnv (n lstm L W : ℕ) where
  raw : Fin n → Fin lstm → ℝ
  rez : Fin n → Fin L → Fin W → ℝ
  ip1 : ℕ → Fin n → Fin 128 → ℝ

/-- `apply_rezoom` (lines 65-127).  Returns the flat buffers of
`pred_confs_deltas` (shape `[outer_size * rnn_len, num_classes]` after the
line 113 reshape) and `pred_boxes_deltas` (shape `[outer_size, rnn_len, 4]`
after the line 125 concat; the empty Python list when `reregress` is
false).  The softmax recomputed on lines 117-123 only rebinds the local
`pred_confidences` and is not returned. -/
noncomputable def applyRezoom (H : Hypes)
    (rzw : RezoomWeights H.lstm_size H.early_feat_channels (numOffsets H)
      H.num_classes)
    (raw : Fin (outerSize H) → Fin H.lstm_size → ℝ)
    (sample : ℝ → ℝ → Fin (outerSize H) → Fin H.rnn_len →
      Fin H.early_feat_channels → ℝ)
    (phase : Phase)
    (env : DropoutEnv (outerSize H) H.lstm_size H.rnn_len
      (numOffsets H * H.early_feat_channels)) : List ℝ × List ℝ :=
  let n := outerSize H
  let W := numOffsets H * H.early_feat_channels
  let rez0 : Fin n → Fin H.rnn_len → Fin W → ℝ := fun i k j =>
    (rezoomList H.rezoom_w_coords H.rezoom_h_coords n H.rnn_len
      H.early_feat_channels sample).getD ((i.1 * H.rnn_len + k.1) * W + j.1) 0
  let rez := if phase = Phase.train then
      fun i k j => rez0 i k j * env.rez i k j
    else rez0
  let ip1 : Fin H.rnn_len → Fin n → Fin 128 → ℝ := fun k i d =>
    let df : Fin (H.lstm_size + W) → ℝ :=
      Fin.append (raw i) fun j => rez i k j / 1000
    let v := max (∑ j, df j * rzw.ip1 k.1 j d) 0
    if phase = Phase.train then v * env.ip1 k.1 i d else v
  let confsDelta : Fin n → Fin H.rnn_len → Fin H.num_classes → ℝ :=
    fun i k c => (∑ d, ip1 k i d * rzw.conf2 k.1 d c) * H.rezoom_conf_scale
  let boxesDelta : Fin n → Fin H.rnn_len → Fin 4 → ℝ :=
    fun i k c => (∑ d, ip1 k i d * rzw.boxes2 k.1 d c) * 5
  (flatten3 n H.rnn_len H.num_classes confsDelta,
   if H.reregress then flatten3 n H.rnn_len 4 boxesDelta else [])

/-- The tuple returned by `decoder` (lines 205-206), as flat buffers.  The
delta fields are `none` when rezoom is disabled (the Python `(None, None)`
of line 201). -/
structure DecOut where
  pred_box : List ℝ
  pred_logits : List ℝ
  pred_confidences : List ℝ
  pred_confs_deltas : Option (List ℝ)
  pred_boxes_deltas : Option (List ℝ)

/-- The decoder bottleneck `raw_output` (lines 173-176, via
`_build_yolo_fc_layer`, lines 130-144): input scaled by 0.01, projected by
the learned `ip`, with dropout applied in the train phase only (the realized
dropout multipliers are `draw`). -/
noncomputable def rawOutput (n cnnch lstm C : ℕ) (w : DecWeights cnnch lstm C)
    (cnn_output : Fin n → Fin cnnch → ℝ) (phase : Phase)
    (draw : Fin n → Fin lstm → ℝ) : Fin n → Fin lstm → ℝ :=
  let raw0 : Fin n → Fin lstm → ℝ := fun i j =>
    ∑ c, cnn_output i c * 0.01 * w.ip c j
  if phase = Phase.train then fun i j => raw0 i j * draw i j else raw0

/-- The box head (line 184): `matmul(raw_output, box_weights) * 50`. -/
noncomputable def boxFn (n lstm : ℕ) (box_ip : Fin lstm → Fin 4 → ℝ)
    (raw : Fin n → Fin lstm → ℝ) : Fin n → Fin 4 → ℝ :=
  fun i c => (∑ j, raw i j * box_ip j c) * 50

/-- The confidence head logits (line 187):
`matmul(raw_output, conf_weights)`. -/
noncomputable def logitFn (n lstm C : ℕ) (conf_ip : Fin lstm → Fin C → ℝ)
    (raw : Fin n → Fin lstm → ℝ) : Fin n → Fin C → ℝ :=
  fun i c => ∑ j, raw i j * conf_ip j c

/-- Row-wise `tf.nn.softmax` (line 190). -/
noncomputable def softmaxFn (n C : ℕ) (logit : Fin n → Fin C → ℝ) :
    Fin n → Fin C → ℝ :=
  fun i c => Real.exp (logit i c) / ∑ e, Real.exp (logit i e)

/-- Row-wise softmax on the flat buffer of a `[rows, C]` tensor. -/
noncomputable def softmaxRows (C : ℕ) (l : List ℝ) : List ℝ :=
  (List.range l.length).map fun p =>
    Real.exp (l.getD p 0) / ∑ c : Fin C, Real.exp (l.getD (p / C * C + c.1) 0)

/-- `decoder` (lines 147-206).  `bilin` abstracts the external
bilinear-sampling primitive as a function of the predicted boxes (see
`rezoomList`).  Dropout (applied only in the train phase) draws its
multipliers from `env`.  The three `tf.reshape` calls on the outputs are
modelled with `reshape`; a shape mismatch is a construction-time failure
(`none`). -/
noncomputable def decoder (H : Hypes)
    (w : DecWeights H.cnn_channels H.lstm_size H.num_classes)
    (rzw : RezoomWeights H.lstm_size H.early_feat_channels (numOffsets H)
      H.num_classes)
    (cnn_output : Fin (outerSize H) → Fin H.cnn_channels → ℝ)
    (bilin : (Fin (outerSize H) → Fin 4 → ℝ) → ℝ → ℝ → Fin (outerSize H) →
      Fin H.rnn_len → Fin H.early_feat_channels → ℝ)
    (phase : Phase)
    (env : DropoutEnv (outerSize H) H.lstm_size H.rnn_len
      (numOffsets H * H.early_feat_channels)) : Option DecOut :=
  let n := outerSize H
  let raw := rawOutput n H.cnn_channels H.lstm_size H.num_classes w
    cnn_output phase env.raw
  (reshape (flatten2 n 4 (boxFn n H.lstm_size w.box_ip raw))
      [n, 1, 4]).bind fun pb =>
  (reshape (flatten2 n H.num_classes
      (logitFn n H.lstm_size H.num_classes w.conf_ip raw))
      [n, H.num_classes]).bind fun pl =>
  (reshape (flatten2 n H.num_classes
      (softmaxFn n H.num_classes
        (logitFn n H.lstm_size H.num_classes w.conf_ip raw)))
      [n, H.rnn_len, H.num_classes]).bind fun pc =>
  if H.use_rezoom then
    let d := applyRezoom H rzw raw
      (bilin (boxFn n H.lstm_size w.box_ip raw)) phase env
    some ⟨pb, pl, pc, some d.1, some d.2⟩
  else
    some ⟨pb, pl, pc, none, none⟩

/-! ## Evaluation (lines 317-342) -/

/-- `tf.argmax` over `C` entries read through `f`: the first index
attaining the maximum. -/
noncomputable def argmaxIdx (C : ℕ) (f : ℕ → ℝ) : ℕ :=
  (List.range C).foldl (fun best j => if f best < f j then j else best) 0

/-- The accuracy of lines 330-342: `pred_confidences` is reshaped to
`[batch_size, grid_size, rnn_len, num_classes]`, slot 0 of each cell is
compared by argmax with slot 0 of the ground-truth `confidences`, and the
agreement indicator is averaged over all cells
(`tf.reduce_mean` over `[batch_size, grid_size]`). -/
noncomputable def accuracyOf (H : Hypes)
    (confidences : Fin H.batch_size → Fin (H.grid_width * H.grid_height) →
      ℕ → ℕ → ℝ)
    (pred_conf : List ℝ) : ℝ :=
  let gs := H.grid_width * H.grid_height
  (∑ b, ∑ g, if argmaxIdx H.num_classes (fun c => confidences b g 0 c) =
      argmaxIdx H.num_classes (fun c =>
        pred_conf.getD ((b.1 * gs + g.1) * (H.rnn_len * H.num_classes) + c) 0)
    then (1 : ℝ) else 0) / ((H.batch_size : ℝ) * (gs : ℝ))

/-- The accuracy value `evaluation` computes for one phase (lines 322-342):
run the decoder for that phase and average the slot-0 argmax agreement.
`none` when graph construction fails. -/
noncomputable def evaluationAccuracy (H : Hypes)
    (w : DecWeights H.cnn_channels H.lstm_size H.num_classes)
    (rzw : RezoomWeights H.lstm_size H.early_feat_channels (numOffsets H)
      H.num_classes)
    (cnn_output : Fin (outerSize H) → Fin H.cnn_channels → ℝ)
    (bilin : (Fin (outerSize H) → Fin 4 → ℝ) → ℝ → ℝ → Fin (outerSize H) →
      Fin H.rnn_len → Fin H.early_feat_channels → ℝ)
    (phase : Phase)
    (env : DropoutEnv (outerSize H) H.lstm_size H.rnn_len
      (numOffsets H * H.early_feat_channels))
    (confidences : Fin H.batch_size → Fin (H.grid_width * H.grid_height) →
      ℕ → ℕ → ℝ) : Option ℝ :=
  (decoder H w rzw cnn_output bilin phase env).map fun o =>
    accuracyOf H confidences o.pred_confidences

/-! ## Concrete configurations (used by the closed instances below) -/

/-- A minimal valid configuration: 1 x 1 grid, batch 1, `rnn_len = 1`,
2 classes, rezoom and lstm disabled, unit head weights. -/
def H1 : Hypes where
  grid_width := 1
  grid_height := 1
  batch_size := 1
  rnn_len := 1
  num_classes := 2
  cnn_channels := 1
  lstm_size := 1
  early_feat_channels := 1
  rezoom_w_coords := [0]
  rezoom_h_coords := [0]
  rezoom_conf_scale := 50
  use_rezoom := false
  reregress := false
  use_lstm := false
  rezoom_change_loss := RezoomChangeLoss.falsy
  head0 := 1
  head1 := 1
  hungarian_iou := 1

/-- `H1` with `rnn_len = 2`. -/
def H2 : Hypes := { H1 with rnn_len := 2 }

/-- `H1` with rezoom, re-regression and the `'iou'` change-loss policy
enabled. -/
def Hrz : Hypes :=
  { H1 with
    use_rezoom := true
    reregress := true
    rezoom_change_loss := RezoomChangeLoss.iou }

/-- Zero flags: no ground-truth object in any cell. -/
def z1 : Fin (outerSize H1) → ℝ := fun _ => 0

/-- Zero boxes. -/
def zb1 : Fin (outerSize H1) → Fin 4 → ℝ := fun _ _ => 0

/-- Zero logits. -/
def zl1 : Fin (outerSize H1) → Fin H1.num_classes → ℝ := fun _ _ => 0

/-- A ground-truth box tensor whose single cell holds the box
`(1, 1, 1, 1)` (all four coordinates 1). -/
def truthB : Fin (outerSize H1) → Fin 4 → ℝ := fun _ _ => 1

/-- A predicted-box tensor with all coordinates 5. -/
def predB : Fin (outerSize H1) → Fin 4 → ℝ := fun _ _ => 5

/-- The box `(1, 1, 1, 1)` (unit width and height) in every cell. -/
def boxP : Fin (outerSize H1) → Fin 4 → ℝ := fun _ _ => 1

/-- An all-zero matcher output for `H1` (stands in for the external
hungarian op, which is unused when `use_lstm` is false). -/
def m1 : MatchOut H1 := ⟨fun _ => 0, fun _ _ => 0, fun _ => 0⟩

/-- A matcher output for `Hrz` whose matched truth is the unit box `boxP`
and whose class/mask are 1 everywhere. -/
def mrz : MatchOut Hrz := ⟨fun _ => 1, boxP, fun _ => 1⟩

/-- Zero decoder weights for `H1`. -/
def dw1 : DecWeights H1.cnn_channels H1.lstm_size H1.num_classes :=
  ⟨fun _ _ => 0, fun _ _ => 0, fun _ _ => 0⟩

/-- Zero rezoom weights for `H1`. -/
def rzw1 : RezoomWeights H1.lstm_size H1.early_feat_channels (numOffsets H1)
    H1.num_classes :=
  ⟨fun _ _ _ => 0, fun _ _ _ => 0, fun _ _ _ => 0⟩

/-- A dropout environment for `H1` with all multipliers zero. -/
def env1 : DropoutEnv (outerSize H1) H1.lstm_size H1.rnn_len
    (numOffsets H1 * H1.early_feat_channels) :=
  ⟨fun _ _ => 0, fun _ _ _ => 0, fun _ _ _ => 0⟩

/-- Zero backbone features for `H1`. -/
def cnn1 : Fin (outerSize H1) → Fin H1.cnn_channels → ℝ := fun _ _ => 0

/-- A zero bilinear-sampling primitive for `H1`. -/
def bilin1 : (Fin (outerSize H1) → Fin 4 → ℝ) → ℝ → ℝ →
    Fin (outerSize H1) → Fin H1.rnn_len → Fin H1.early_feat_channels → ℝ :=
  fun _ _ _ _ _ _ => 0

/-- Zero ground-truth confidences for `H1` (for the evaluation model). -/
def conf1 : Fin H1.batch_size → Fin (H1.grid_width * H1.grid_height) →
    ℕ → ℕ → ℝ := fun _ _ _ _ => 0

/-! ## Helper lemmas: row-major index arithmetic -/

theorem encode_lt {a b n m : ℕ} (ha : a < n) (hb : b < m) :
    a * m + b < n * m := by
  calc a * m + b < a * m + m := by omega
    _ = (a + 1) * m := by ring
    _ ≤ n * m := Nat.mul_le_mul_right m ha

theorem encode_div {a b m : ℕ} (hb : b < m) : (a * m + b) / m = a := by
  have hm : 0 < m := Nat.lt_of_le_of_lt (Nat.zero_le b) hb
  rw [Nat.add_comm, Nat.add_mul_div_right _ _ hm, Nat.div_eq_of_lt hb,
    Nat.zero_add]

theorem encode_mod {a b m : ℕ} (hb : b < m) : (a * m + b) % m = b := by
  rw [Nat.add_comm, Nat.add_mul_mod_self_right, Nat.mod_eq_of_lt hb]

theorem decode2_eq {n m : ℕ} (p : Fin (n * m)) (a : Fin n) (b : Fin m)
    (h : p.1 = a.1 * m + b.1) : decode2 n m p = (a, b) := by
  unfold decode2
  refine Prod.ext (Fin.ext ?_) (Fin.ext ?_) <;> simp only [h]
  · exact encode_div b.2
  · exact encode_mod b.2

@[simp] theorem flatten2_length (n m : ℕ) (f : Fin n → Fin m → ℝ) :
    (flatten2 n m f).length = n * m := by
  simp [flatten2]

@[simp] theorem flatten3_length (d0 d1 d2 : ℕ)
    (f : Fin d0 → Fin d1 → Fin d2 → ℝ) :
    (flatten3 d0 d1 d2 f).length = d0 * (d1 * d2) := by
  simp [flatten3]

@[simp] theorem flatten4_length (d0 d1 d2 d3 : ℕ)
    (f : Fin d0 → Fin d1 → Fin d2 → Fin d3 → ℝ) :
    (flatten4 d0 d1 d2 d3 f).length = d0 * (d1 * (d2 * d3)) := by
  simp [flatten4]

theorem decode4_eq {d0 d1 d2 d3 : ℕ} (p : Fin (d0 * (d1 * (d2 * d3))))
    (a : Fin d0) (b : Fin d1) (c : Fin d2) (e : Fin d3)
    (h : p.1 = ((a.1 * d1 + b.1) * d2 + c.1) * d3 + e.1) :
    decode4 d0 d1 d2 d3 p = (a, b, c, e) := by
  have hbce : (b.1 * d2 + c.1) * d3 + e.1 < d1 * (d2 * d3) :=
    lt_of_lt_of_eq (encode_lt (encode_lt b.2 c.2) e.2) (by ring)
  have hce : c.1 * d3 + e.1 < d2 * d3 := encode_lt c.2 e.2
  have h0 : decode2 d0 (d1 * (d2 * d3)) p =
      (a, ⟨(b.1 * d2 + c.1) * d3 + e.1, hbce⟩) :=
    decode2_eq p a ⟨(b.1 * d2 + c.1) * d3 + e.1, hbce⟩ (by rw [h]; ring)
  have h1 : decode2 d1 (d2 * d3)
      (⟨(b.1 * d2 + c.1) * d3 + e.1, hbce⟩ : Fin (d1 * (d2 * d3))) =
      (b, ⟨c.1 * d3 + e.1, hce⟩) :=
    decode2_eq _ b ⟨c.1 * d3 + e.1, hce⟩ (by simp only; ring)
  have h2 : decode2 d2 d3 (⟨c.1 * d3 + e.1, hce⟩ : Fin (d2 * d3)) =
      (c, e) := decode2_eq _ c e rfl
  unfold decode4
  rw [h0]
  simp only
  rw [h1]
  simp only
  rw [h2]

theorem flatten2_getD (n m : ℕ) (f : Fin n → Fin m → ℝ) (a : Fin n)
    (b : Fin m) : (flatten2 n m f).getD (a.1 * m + b.1) 0 = f a b := by
  have h : a.1 * m + b.1 < n * m := encode_lt a.2 b.2
  rw [List.getD_eq_getElem _ _ (by simpa using h)]
  unfold flatten2
  rw [List.getElem_map, List.getElem_finRange,
    decode2_eq _ a b (by simp)]

theorem flatten4_getD (d0 d1 d2 d3 : ℕ)
    (f : Fin d0 → Fin d1 → Fin d2 → Fin d3 → ℝ) (a : Fin d0) (b : Fin d1)
    (c : Fin d2) (e : Fin d3) :
    (flatten4 d0 d1 d2 d3 f).getD
      (((a.1 * d1 + b.1) * d2 + c.1) * d3 + e.1) 0 = f a b c e := by
  have h3 : ((a.1 * d1 + b.1) * d2 + c.1) * d3 + e.1 < d0 * d1 * d2 * d3 :=
    encode_lt (encode_lt (encode_lt a.2 b.2) c.2) e.2
  have h4 : ((a.1 * d1 + b.1) * d2 + c.1) * d3 + e.1 <
      d0 * (d1 * (d2 * d3)) := lt_of_lt_of_eq h3 (by ring)
  rw [List.getD_eq_getElem _ _ (by simpa using h4)]
  unfold flatten4
  rw [List.getElem_map, List.getElem_finRange,
    decode4_eq _ a b c e (by simp)]

theorem flatten2_getD_at (n m : ℕ) (f : Fin n → Fin m → ℝ) (p : ℕ)
    (a : Fin n) (b : Fin m) (h : p = a.1 * m + b.1) :
    (flatten2 n m f).getD p 0 = f a b := by
  subst h; exact flatten2_getD n m f a b

theorem transpose_1203_getD (d0 d1 d2 d3 : ℕ) (l : List ℝ)
    (a : Fin d0) (b : Fin d1) (c : Fin d2) (e : Fin d3) :
    (transpose_1203 d0 d1 d2 d3 l).getD
      (((b.1 * d2 + c.1) * d0 + a.1) * d3 + e.1) 0 =
    l.getD (((a.1 * d1 + b.1) * d2 + c.1) * d3 + e.1) 0 := by
  have h3 : ((b.1 * d2 + c.1) * d0 + a.1) * d3 + e.1 < d1 * d2 * d0 * d3 :=
    encode_lt (encode_lt (encode_lt b.2 c.2) a.2) e.2
  have h4 : ((b.1 * d2 + c.1) * d0 + a.1) * d3 + e.1 <
      d1 * (d2 * (d0 * d3)) := lt_of_lt_of_eq h3 (by ring)
  rw [List.getD_eq_getElem _ _ (by simpa [transpose_1203] using h4)]
  unfold transpose_1203
  rw [List.getElem_map, List.getElem_finRange]
  simp only [Fin.coe_cast]
  rw [encode_mod e.2, encode_div e.2, encode_mod a.2, encode_div a.2,
    encode_mod c.2, encode_div c.2]

theorem rezoomList_getD (ws hs : List ℝ) (n L ch : ℕ)
    (sample : ℝ → ℝ → Fin n → Fin L → Fin ch → ℝ)
    (i : Fin n) (k : Fin L) (o : Fin (ws.length * hs.length)) (c : Fin ch) :
    (rezoomList ws hs n L ch sample).getD
      ((i.1 * L + k.1) * (ws.length * hs.length * ch) +
        (o.1 * ch + c.1)) 0 =
      sample (offsetPair ws hs o).1 (offsetPair ws hs o).2 i k c := by
  have hidx : (i.1 * L + k.1) * (ws.length * hs.length * ch) +
      (o.1 * ch + c.1) =
      ((i.1 * L + k.1) * (ws.length * hs.length) + o.1) * ch + c.1 := by
    ring
  rw [hidx]
  unfold rezoomList
  rw [transpose_1203_getD (ws.length * hs.length) n L ch _ o i k c]
  exact flatten4_getD (ws.length * hs.length) n L ch _ o i k c

/-! ## Helper lemmas: analytic facts -/

theorem sparseSoftmaxCrossEntropy_nonneg (C : ℕ) (logits : Fin C → ℝ)
    (label : ℕ) (h : label < C) :
    0 ≤ sparseSoftmaxCrossEntropy C logits label := by
  unfold sparseSoftmaxCrossEntropy
  rw [dif_pos h]
  have hpos : 0 < ∑ j, Real.exp (logits j) :=
    Finset.sum_pos (fun j _ => Real.exp_pos _)
      ⟨⟨label, h⟩, Finset.mem_univ _⟩
  have hle : Real.exp (logits ⟨label, h⟩) ≤ ∑ j, Real.exp (logits j) :=
    Finset.single_le_sum (f := fun j => Real.exp (logits j))
      (fun j _ => (Real.exp_pos _).le) (Finset.mem_univ _)
  exact sub_nonneg.mpr ((Real.le_log_iff_exp_le hpos).mpr hle)

theorem iouVal_self (b : Fin 4 → ℝ) (hw : 0 < b 2) (hh : 0 < b 3) :
    iouVal (to_x1y1x2y2 b) (to_x1y1x2y2 b) = 1 := by
  simp only [iouVal, to_x1y1x2y2, min_self, max_self]
  have e1 : b 0 + b 2 / 2 - (b 0 - b 2 / 2) = b 2 := by ring
  have e2 : b 1 + b 3 / 2 - (b 1 - b 3 / 2) = b 3 := by ring
  rw [e1, e2, max_eq_right hw.le, max_eq_right hh.le]
  have e3 : b 2 * b 3 + b 2 * b 3 - b 2 * b 3 = b 2 * b 3 := by ring
  rw [e3]
  exact div_self (mul_pos hw hh).ne'

theorem softmaxRows_flatten2 (n C : ℕ) (f : Fin n → Fin C → ℝ) :
    softmaxRows C (flatten2 n C f) = flatten2 n C (softmaxFn n C f) := by
  apply List.ext_getElem
  · simp [softmaxRows]
  · intro p h1 h2
    have hp : p < n * C := by simpa using h2
    have hC : 0 < C := by
      rcases Nat.eq_zero_or_pos C with rfl | hC
      · simp at hp
      · exact hC
    have hdiv : p / C < n := (Nat.div_lt_iff_lt_mul hC).mpr hp
    have hsplit : p = p / C * C + p % C := by
      rw [Nat.mul_comm]
      exact (Nat.div_add_mod p C).symm
    have hL : (softmaxRows C (flatten2 n C f))[p] =
        Real.exp ((flatten2 n C f).getD p 0) /
          ∑ c : Fin C, Real.exp
            ((flatten2 n C f).getD (p / C * C + c.1) 0) := by
      unfold softmaxRows
      rw [List.getElem_map]
      congr 1
      · congr 1
        rw [List.getElem_range]
      · congr 1
        funext c
        rw [List.getElem_range]
    have hR : (flatten2 n C (softmaxFn n C f))[p] =
        softmaxFn n C f ⟨p / C, hdiv⟩ ⟨p % C, Nat.mod_lt _ hC⟩ := by
      unfold flatten2
      rw [List.getElem_map, List.getElem_finRange,
        decode2_eq _ ⟨p / C, hdiv⟩ ⟨p % C, Nat.mod_lt _ hC⟩
          (by simpa using hsplit)]
    rw [hL, hR]
    unfold softmaxFn
    rw [flatten2_getD_at n C f p ⟨p / C, hdiv⟩ ⟨p % C, Nat.mod_lt _ hC⟩
      hsplit]
    congr 1
    apply Finset.sum_congr rfl
    intro c _
    rw [flatten2_getD_at n C f _ ⟨p / C, hdiv⟩ c rfl]

/-! ## Helper lemmas: the decoder graph -/

theorem decoder_eq (H : Hypes)
    (w : DecWeights H.cnn_channels H.lstm_size H.num_classes)
    (rzw : RezoomWeights H.lstm_size H.early_feat_channels (numOffsets H)
      H.num_classes)
    (cnn_output : Fin (outerSize H) → Fin H.cnn_channels → ℝ)
    (bilin : (Fin (outerSize H) → Fin 4 → ℝ) → ℝ → ℝ → Fin (outerSize H) →
      Fin H.rnn_len → Fin H.early_feat_channels → ℝ)
    (phase : Phase)
    (env : DropoutEnv (outerSize H) H.lstm_size H.rnn_len
      (numOffsets H * H.early_feat_channels)) :
    decoder H w rzw cnn_output bilin phase env =
      (if outerSize H * H.num_classes =
          outerSize H * (H.rnn_len * H.num_classes) then
        some
          { pred_box := flatten2 (outerSize H) 4 (boxFn (outerSize H)
              H.lstm_size w.box_ip (rawOutput (outerSize H) H.cnn_channels
              H.lstm_size H.num_classes w cnn_output phase env.raw))
            pred_logits := flatten2 (outerSize H) H.num_classes
              (logitFn (outerSize H) H.lstm_size H.num_classes w.conf_ip
              (rawOutput (outerSize H) H.cnn_channels H.lstm_size
              H.num_classes w cnn_output phase env.raw))
            pred_confidences := flatten2 (outerSize H) H.num_classes
              (softmaxFn (outerSize H) H.num_classes
              (logitFn (outerSize H) H.lstm_size H.num_classes w.conf_ip
              (rawOutput (outerSize H) H.cnn_channels H.lstm_size
              H.num_classes w cnn_output phase env.raw)))
            pred_confs_deltas := if H.use_rezoom then
              some (applyRezoom H rzw (rawOutput (outerSize H)
                H.cnn_channels H.lstm_size H.num_classes w cnn_output phase
                env.raw) (bilin (boxFn (outerSize H) H.lstm_size w.box_ip
                (rawOutput (outerSize H) H.cnn_channels H.lstm_size
                H.num_classes w cnn_output phase env.raw))) phase env).1
              else none
            pred_boxes_deltas := if H.use_rezoom then
              some (applyRezoom H rzw (rawOutput (outerSize H)
                H.cnn_channels H.lstm_size H.num_classes w cnn_output phase
                env.raw) (bilin (boxFn (outerSize H) H.lstm_size w.box_ip
                (rawOutput (outerSize H) H.cnn_channels H.lstm_size
                H.num_classes w cnn_output phase env.raw))) phase env).2
              else none }
      else none) := by
  unfold decoder
  simp only [reshape, flatten2_length, List.prod_cons, List.prod_nil,
    mul_one, one_mul]
  split_ifs with h1 h2 <;> simp_all

theorem sum_fin_one {N : ℕ} (hN : N = 1) (g : Fin N → ℝ) :
    (∑ i, g i) = g ⟨0, hN ▸ one_pos⟩ := by
  subst hN
  exact Fin.sum_univ_one g

/-! ## Claims -/

/-- C3 (amended): for configurations with `rnn_len = 1` the decoder graph
is built successfully, `pred_boxes` has shape
`(batch * grid_width * grid_height, 1, 4)` and `pred_confidences` has shape
`(batch * grid_width * grid_height, rnn_len, num_classes)`.  (For
`rnn_len ≥ 2` the `pred_confidences` reshape of line 192 has a mismatched
element count and graph construction fails; see the counterexample.) -/
theorem C3_decoder_shapes (H : Hypes) (hL : H.rnn_len = 1)
    (w : DecWeights H.cnn_channels H.lstm_size H.num_classes)
    (rzw : RezoomWeights H.lstm_size H.early_feat_channels (numOffsets H)
      H.num_classes)
    (cnn_output : Fin (outerSize H) → Fin H.cnn_channels → ℝ)
    (bilin : (Fin (outerSize H) → Fin 4 → ℝ) → ℝ → ℝ → Fin (outerSize H) →
      Fin H.rnn_len → Fin H.early_feat_channels → ℝ)
    (phase : Phase)
    (env : DropoutEnv (outerSize H) H.lstm_size H.rnn_len
      (numOffsets H * H.early_feat_channels)) :
    ∃ o : DecOut, decoder H w rzw cnn_output bilin phase env = some o ∧
      o.pred_box.length = outerSize H * 1 * 4 ∧
      o.pred_logits.length = outerSize H * H.num_classes ∧
      o.pred_confidences.length =
        outerSize H * H.rnn_len * H.num_classes := by
  rw [decoder_eq, if_pos (by rw [hL, one_mul])]
  refine ⟨_, rfl, ?_, ?_, ?_⟩ <;> simp [hL]

/-- C3 (counterexample): with `rnn_len = 2` (configuration `H2`, a 1 x 1
grid with 2 classes) the softmax output has `outer_size * num_classes = 2`
elements but line 192 reshapes it to `[outer_size, rnn_len, num_classes]`
(= 4 elements), so the decoder fails instead of returning tensors of the
claimed shapes. -/
theorem C3_counterexample :
    decoder H2 dw1 rzw1 cnn1 (fun _ _ _ _ _ _ => 0) Phase.val
      ⟨fun _ _ => 0, fun _ _ _ => 0, fun _ _ _ => 0⟩ = none := by
  rw [decoder_eq, if_neg (by decide)]

/-- C3 (witness): the amended claim applied to the concrete configuration
`H1` (`rnn_len = 1`). -/
theorem C3_witness :
    H1.rnn_len = 1 ∧
    ∃ o : DecOut, decoder H1 dw1 rzw1 cnn1 bilin1 Phase.val env1 = some o ∧
      o.pred_box.length = outerSize H1 * 1 * 4 ∧
      o.pred_logits.length = outerSize H1 * H1.num_classes ∧
      o.pred_confidences.length =
        outerSize H1 * H1.rnn_len * H1.num_classes :=
  ⟨rfl, C3_decoder_shapes H1 rfl dw1 rzw1 cnn1 bilin1 Phase.val env1⟩

/-- C9: the `pred_confidences` returned by the decoder are the softmax of
the base `pred_logits` (computed on lines 187-194, before the rezoom
branch), and they are identical whatever the values of the
`use_rezoom`/`reregress` flags: `apply_rezoom` only returns the delta pair,
and the softmax it recomputes internally is discarded. -/
theorem C9_confidences_frame (H : Hypes)
    (w : DecWeights H.cnn_channels H.lstm_size H.num_classes)
    (rzw : RezoomWeights H.lstm_size H.early_feat_channels (numOffsets H)
      H.num_classes)
    (cnn_output : Fin (outerSize H) → Fin H.cnn_channels → ℝ)
    (bilin : (Fin (outerSize H) → Fin 4 → ℝ) → ℝ → ℝ → Fin (outerSize H) →
      Fin H.rnn_len → Fin H.early_feat_channels → ℝ)
    (phase : Phase)
    (env : DropoutEnv (outerSize H) H.lstm_size H.rnn_len
      (numOffsets H * H.early_feat_channels))
    (u r u2 r2 : Bool) :
    ((decoder { H with use_rezoom := u, reregress := r } w rzw cnn_output
        bilin phase env).map DecOut.pred_confidences) =
      ((decoder { H with use_rezoom := u2, reregress := r2 } w rzw
        cnn_output bilin phase env).map DecOut.pred_confidences) ∧
    ((decoder H w rzw cnn_output bilin phase env).map
        DecOut.pred_confidences) =
      ((decoder H w rzw cnn_output bilin phase env).map fun o =>
        softmaxRows H.num_classes o.pred_logits) := by
  constructor
  · rw [decoder_eq, decoder_eq]
    dsimp only [outerSize]
    split_ifs with hc <;> rfl
  · rw [decoder_eq]
    dsimp only [outerSize]
    split_ifs <;>
      first
        | rfl
        | (refine congrArg some ?_
           dsimp only
           rw [softmaxRows_flatten2])

/-- C10: in the `val` phase the evaluation accuracy does not depend on the
dropout draws (dropout is applied only when `phase = train`), so two
evaluations with identical inputs, labels and weights produce identical
accuracy values: the slot-0 argmax agreement averaged over cells is a
deterministic function of its inputs. -/
theorem C10_val_deterministic (H : Hypes)
    (w : DecWeights H.cnn_channels H.lstm_size H.num_classes)
    (rzw : RezoomWeights H.lstm_size H.early_feat_channels (numOffsets H)
      H.num_classes)
    (cnn_output : Fin (outerSize H) → Fin H.cnn_channels → ℝ)
    (bilin : (Fin (outerSize H) → Fin 4 → ℝ) → ℝ → ℝ → Fin (outerSize H) →
      Fin H.rnn_len → Fin H.early_feat_channels → ℝ)
    (confidences : Fin H.batch_size → Fin (H.grid_width * H.grid_height) →
      ℕ → ℕ → ℝ)
    (env1a env2a : DropoutEnv (outerSize H) H.lstm_size H.rnn_len
      (numOffsets H * H.early_feat_channels)) :
    evaluationAccuracy H w rzw cnn_output bilin Phase.val env1a
        confidences =
      evaluationAccuracy H w rzw cnn_output bilin Phase.val env2a
        confidences := by
  unfold evaluationAccuracy
  have hraw : rawOutput (outerSize H) H.cnn_channels H.lstm_size
      H.num_classes w cnn_output Phase.val env1a.raw =
      rawOutput (outerSize H) H.cnn_channels H.lstm_size H.num_classes w
      cnn_output Phase.val env2a.raw := by
    unfold rawOutput
    simp
  have harz : ∀ (raw : Fin (outerSize H) → Fin H.lstm_size → ℝ)
      (sample : ℝ → ℝ → Fin (outerSize H) → Fin H.rnn_len →
        Fin H.early_feat_channels → ℝ),
      applyRezoom H rzw raw sample Phase.val env1a =
        applyRezoom H rzw raw sample Phase.val env2a := by
    intro raw sample
    unfold applyRezoom
    simp
  rw [decoder_eq, decoder_eq, hraw, harz]

/-- C6: the classification loss is the sparse softmax cross entropy of the
per-slot logits against the binary target which is 1 exactly when the
matched class is positive, summed over all slots, divided by `outer_size`
and multiplied by `head_weights[0]` (the model fixes `rnn_len = 1`, the
only slot count the reshapes on lines 238-246 admit). -/
theorem C6_classification_loss (H : Hypes) (hL : H.rnn_len = 1)
    (m : MatchOut H)
    (pb : Fin (outerSize H) → Fin 4 → ℝ)
    (pl : Fin (outerSize H) → Fin H.num_classes → ℝ)
    (pcd : Fin (outerSize H) → Fin H.num_classes → ℝ)
    (pbd : Fin (outerSize H) → Fin 4 → ℝ) (extra : List ℝ) :
    (lossFromMatch H m pb pl pcd pbd extra).2.1 =
      (∑ i, sparseSoftmaxCrossEntropy H.num_classes (pl i)
        (if 0 < m.classes i then 1 else 0)) / (outerSize H : ℝ) *
        H.head0 := by
  cases hz : H.use_rezoom <;> cases hr : H.reregress <;>
    simp [lossFromMatch, confidencesLoss, hz, hr]

/-- C6 (witness): the classification-loss formula at the concrete
configuration `H1`. -/
theorem C6_witness :
    H1.rnn_len = 1 ∧
    (lossFromMatch H1 m1 zb1 zl1 zl1 zb1 []).2.1 =
      (∑ i, sparseSoftmaxCrossEntropy H1.num_classes (zl1 i)
        (if 0 < m1.classes i then 1 else 0)) / (outerSize H1 : ℝ) *
        H1.head0 :=
  ⟨rfl, C6_classification_loss H1 rfl m1 zb1 zl1 zl1 zb1 []⟩

/-- C7: with `use_lstm` false the matcher is the trivial identity
assignment of lines 237-241: `classes` is the flags tensor, `perm_truth`
is the ground-truth box tensor unchanged, and the presence mask is 1
exactly where the flag is positive. -/
theorem C7_identity_matcher (H : Hypes) (hu : H.use_lstm = false)
    (hung : MatchOut H) (flags : Fin (outerSize H) → ℝ)
    (boxes : Fin (outerSize H) → Fin 4 → ℝ)
    (pb : Fin (outerSize H) → Fin 4 → ℝ)
    (pl : Fin (outerSize H) → Fin H.num_classes → ℝ)
    (pcd : Fin (outerSize H) → Fin H.num_classes → ℝ)
    (pbd : Fin (outerSize H) → Fin 4 → ℝ) (extra : List ℝ) :
    loss H hung flags boxes pb pl pcd pbd extra =
      lossFromMatch H (singleSlotMatch H flags boxes) pb pl pcd pbd
        extra ∧
    (singleSlotMatch H flags boxes).classes = flags ∧
    (singleSlotMatch H flags boxes).perm_truth = boxes ∧
    ∀ i, (singleSlotMatch H flags boxes).pred_mask i =
      if 0 < flags i then 1 else 0 := by
  refine ⟨?_, rfl, rfl, fun i => rfl⟩
  unfold loss
  rw [hu]
  simp

/-- C7 (witness): the identity matcher at the concrete configuration
`H1`. -/
theorem C7_witness :
    H1.use_lstm = false ∧
    (loss H1 m1 z1 zb1 zb1 zl1 zl1 zb1 [] =
      lossFromMatch H1 (singleSlotMatch H1 z1 zb1) zb1 zl1 zl1 zb1 [] ∧
    (singleSlotMatch H1 z1 zb1).classes = z1 ∧
    (singleSlotMatch H1 z1 zb1).perm_truth = zb1 ∧
    ∀ i, (singleSlotMatch H1 z1 zb1).pred_mask i =
      if 0 < z1 i then 1 else 0) :=
  ⟨rfl, C7_identity_matcher H1 rfl m1 z1 zb1 zb1 zl1 zl1 zb1 []⟩

/-- C5: with rezoom disabled and non-negative head weights (and at least
the two classes every valid configuration has, plus only non-negative
externally registered loss terms), the returned scalars satisfy
`total_loss >= confidence_loss >= 0` and `total_loss >= box_loss >= 0`. -/
theorem C5_loss_bounds (H : Hypes) (hz : H.use_rezoom = false)
    (h0 : 0 ≤ H.head0) (h1 : 0 ≤ H.head1) (hC : 2 ≤ H.num_classes)
    (m : MatchOut H)
    (pb : Fin (outerSize H) → Fin 4 → ℝ)
    (pl : Fin (outerSize H) → Fin H.num_classes → ℝ)
    (pcd : Fin (outerSize H) → Fin H.num_classes → ℝ)
    (pbd : Fin (outerSize H) → Fin 4 → ℝ)
    (extra : List ℝ) (hex : ∀ x ∈ extra, 0 ≤ x) :
    0 ≤ (lossFromMatch H m pb pl pcd pbd extra).2.1 ∧
    (lossFromMatch H m pb pl pcd pbd extra).2.1 ≤
      (lossFromMatch H m pb pl pcd pbd extra).1 ∧
    0 ≤ (lossFromMatch H m pb pl pcd pbd extra).2.2 ∧
    (lossFromMatch H m pb pl pcd pbd extra).2.2 ≤
      (lossFromMatch H m pb pl pcd pbd extra).1 := by
  have hcl : 0 ≤ confidencesLoss H m pl := by
    unfold confidencesLoss
    apply mul_nonneg _ h0
    apply div_nonneg _ (Nat.cast_nonneg _)
    refine Finset.sum_nonneg fun i _ => ?_
    refine sparseSoftmaxCrossEntropy_nonneg _ _ _ ?_
    split_ifs <;> omega
  have hbl : 0 ≤ baseBoxesLoss H m pb := by
    unfold baseBoxesLoss
    apply mul_nonneg _ h1
    apply div_nonneg _ (Nat.cast_nonneg _)
    exact Finset.sum_nonneg fun i _ =>
      Finset.sum_nonneg fun c _ => abs_nonneg _
  have hex2 : 0 ≤ extra.sum := List.sum_nonneg hex
  have heq : lossFromMatch H m pb pl pcd pbd extra =
      (extra.sum + (confidencesLoss H m pl + baseBoxesLoss H m pb),
       confidencesLoss H m pl, baseBoxesLoss H m pb) := by
    simp [lossFromMatch, hz]
  rw [heq]
  exact ⟨hcl, by dsimp only; linarith, hbl, by dsimp only; linarith⟩

/-- C5 (witness): the bounds at the concrete configuration `H1`. -/
theorem C5_witness :
    H1.use_rezoom = false ∧ 0 ≤ H1.head0 ∧ 0 ≤ H1.head1 ∧
    2 ≤ H1.num_classes ∧
    (0 ≤ (lossFromMatch H1 m1 zb1 zl1 zl1 zb1 []).2.1 ∧
     (lossFromMatch H1 m1 zb1 zl1 zl1 zb1 []).2.1 ≤
       (lossFromMatch H1 m1 zb1 zl1 zl1 zb1 []).1 ∧
     0 ≤ (lossFromMatch H1 m1 zb1 zl1 zl1 zb1 []).2.2 ∧
     (lossFromMatch H1 m1 zb1 zl1 zl1 zb1 []).2.2 ≤
       (lossFromMatch H1 m1 zb1 zl1 zl1 zb1 []).1) :=
  ⟨rfl, by norm_num [H1], by norm_num [H1], by norm_num [H1],
   C5_loss_bounds H1 rfl (by norm_num [H1]) (by norm_num [H1])
     (by norm_num [H1]) m1 zb1 zl1 zl1 zb1 [] (by simp)⟩

/-- C1 (counterexample): in configuration `H1` with a flag of 0 (so the
presence mask is 0) but a non-zero matched ground-truth box
`(1, 1, 1, 1)`, the returned `boxes_loss` is 4, not 0: the mask on
line 258 multiplies only `pred_boxes`, so a mask-0 slot still contributes
`sum |perm_truth|`, contradicting the claim that mask-0 slots contribute
nothing regardless of `perm_truth`. -/
theorem C1_counterexample :
    (loss H1 m1 z1 truthB predB zl1 zl1 zb1 []).2.2 = 4 := by
  have h : (loss H1 m1 z1 truthB predB zl1 zl1 zb1 []).2.2 =
      baseBoxesLoss H1 (singleSlotMatch H1 z1 truthB) predB := rfl
  rw [h]
  unfold baseBoxesLoss
  rw [sum_fin_one (show outerSize H1 = 1 from rfl), Fin.sum_univ_four]
  norm_num [singleSlotMatch, truthB, predB, z1, outerSize, H1]

/-- C1 (amended): with rezoom disabled, the returned box loss is
`sum |perm_truth - pred_boxes * pred_mask| / outer_size * head_weights[1]`
— the mask multiplies only the predicted boxes, not the difference.  A
slot with mask 0 therefore contributes `sum_c |perm_truth c|` (which
vanishes only when the matched truth at that slot is itself zero), not 0
regardless of `perm_truth`. -/
theorem C1_boxes_loss (H : Hypes) (hz : H.use_rezoom = false)
    (m : MatchOut H)
    (pb : Fin (outerSize H) → Fin 4 → ℝ)
    (pl : Fin (outerSize H) → Fin H.num_classes → ℝ)
    (pcd : Fin (outerSize H) → Fin H.num_classes → ℝ)
    (pbd : Fin (outerSize H) → Fin 4 → ℝ) (extra : List ℝ) :
    (lossFromMatch H m pb pl pcd pbd extra).2.2 = baseBoxesLoss H m pb ∧
    baseBoxesLoss H m pb =
      (∑ i, ∑ c, |m.perm_truth i c - pb i c * m.pred_mask i|) /
        (outerSize H : ℝ) * H.head1 ∧
    ∀ i, m.pred_mask i = 0 →
      (∑ c, |m.perm_truth i c - pb i c * m.pred_mask i|) =
        ∑ c, |m.perm_truth i c| := by
  refine ⟨?_, rfl, fun i h => ?_⟩
  · simp [lossFromMatch, hz]
  · simp [h]

/-- C1 (witness): the amended box-loss description at the concrete
configuration `H1`. -/
theorem C1_witness :
    H1.use_rezoom = false ∧
    ((lossFromMatch H1 m1 zb1 zl1 zl1 zb1 []).2.2 =
      baseBoxesLoss H1 m1 zb1 ∧
    baseBoxesLoss H1 m1 zb1 =
      (∑ i, ∑ c, |m1.perm_truth i c - zb1 i c * m1.pred_mask i|) /
        (outerSize H1 : ℝ) * H1.head1 ∧
    ∀ i, m1.pred_mask i = 0 →
      (∑ c, |m1.perm_truth i c - zb1 i c * m1.pred_mask i|) =
        ∑ c, |m1.perm_truth i c|) :=
  ⟨rfl, C1_boxes_loss H1 rfl m1 zb1 zl1 zl1 zb1 []⟩

/-- C2: with rezoom and re-regression enabled, the re-regression term is
the per-component squared residual of
`perm_truth - (pred_boxes + pred_boxes_deltas)` masked by `pred_mask`,
clipped at `10 ** 2 = 100` per component before summation, divided by
`outer_size` and weighted by `head_weights[1] * 0.03`; it replaces the
`boxes_loss` value returned to the caller while also being added into the
total loss. -/
theorem C2_reregress_loss (H : Hypes) (hz : H.use_rezoom = true)
    (hr : H.reregress = true) (m : MatchOut H)
    (pb : Fin (outerSize H) → Fin 4 → ℝ)
    (pl : Fin (outerSize H) → Fin H.num_classes → ℝ)
    (pcd : Fin (outerSize H) → Fin H.num_classes → ℝ)
    (pbd : Fin (outerSize H) → Fin 4 → ℝ) (extra : List ℝ) :
    (lossFromMatch H m pb pl pcd pbd extra).2.2 =
      (∑ i, ∑ c, min (((m.perm_truth i c - (pb i c + pbd i c)) *
        m.pred_mask i) ^ 2) (10 ^ 2)) / (outerSize H : ℝ) * H.head1 *
        0.03 ∧
    (lossFromMatch H m pb pl pcd pbd extra).1 =
      extra.sum + (confidencesLoss H m pl + baseBoxesLoss H m pb +
        deltaConfsLoss H m pb pcd +
        (lossFromMatch H m pb pl pcd pbd extra).2.2) := by
  have h2 : (lossFromMatch H m pb pl pcd pbd extra).2.2 =
      deltaBoxesLoss H m pb pbd := by
    simp [lossFromMatch, hz, hr]
  refine ⟨by rw [h2]; rfl, ?_⟩
  rw [h2]
  simp [lossFromMatch, hz, hr]

/-- C2 (witness): the re-regression term at the concrete configuration
`Hrz` (rezoom and re-regression enabled). -/
theorem C2_witness :
    Hrz.use_rezoom = true ∧ Hrz.reregress = true ∧
    ((lossFromMatch Hrz mrz boxP zl1 zl1 zb1 []).2.2 =
      (∑ i, ∑ c, min (((mrz.perm_truth i c - (boxP i c + zb1 i c)) *
        mrz.pred_mask i) ^ 2) (10 ^ 2)) / (outerSize Hrz : ℝ) *
        Hrz.head1 * 0.03 ∧
    (lossFromMatch Hrz mrz boxP zl1 zl1 zb1 []).1 =
      List.sum [] + (confidencesLoss Hrz mrz zl1 +
        baseBoxesLoss Hrz mrz boxP + deltaConfsLoss Hrz mrz boxP zl1 +
        (lossFromMatch Hrz mrz boxP zl1 zl1 zb1 []).2.2)) :=
  ⟨rfl, rfl, C2_reregress_loss Hrz rfl rfl mrz boxP zl1 zl1 zb1 []⟩

/-- C4: with rezoom enabled, the delta-confidence loss is the cross
entropy of the delta logits against the binary `inside` target, divided by
`outer_size`, weighted by `head_weights[0] * 0.1` and added to the total;
the `inside` target is, per policy: `center` — squared normalized center
offset below `0.2 ^ 2` and matched class positive; `iou` — IoU of
predicted and matched boxes above 0.5 (so identical boxes of positive
width and height, IoU = 1, yield target 1); default — matched class
positive. -/
theorem C4_delta_confs (H : Hypes) (hz : H.use_rezoom = true)
    (m : MatchOut H)
    (pb : Fin (outerSize H) → Fin 4 → ℝ)
    (pl : Fin (outerSize H) → Fin H.num_classes → ℝ)
    (pcd : Fin (outerSize H) → Fin H.num_classes → ℝ)
    (pbd : Fin (outerSize H) → Fin 4 → ℝ) (extra : List ℝ) :
    (lossFromMatch H m pb pl pcd pbd extra).1 =
      extra.sum + (confidencesLoss H m pl + baseBoxesLoss H m pb +
        (∑ i, sparseSoftmaxCrossEntropy H.num_classes (pcd i)
          (insideTarget H m pb i)) / (outerSize H : ℝ) * H.head0 * 0.1 +
        (if H.reregress then deltaBoxesLoss H m pb pbd else 0)) ∧
    (H.rezoom_change_loss = RezoomChangeLoss.center → ∀ i,
      insideTarget H m pb i =
        if ((m.perm_truth i 0 - pb i 0) / max (m.perm_truth i 2) 1) ^ 2 +
            ((m.perm_truth i 1 - pb i 1) / max (m.perm_truth i 3) 1) ^ 2 <
            0.2 ^ 2 ∧ 0 < m.classes i then 1 else 0) ∧
    (H.rezoom_change_loss = RezoomChangeLoss.iou →
      (∀ i, insideTarget H m pb i =
        if 0.5 < iouVal (to_x1y1x2y2 (pb i))
          (to_x1y1x2y2 (m.perm_truth i)) then 1 else 0) ∧
      ∀ i, 0 < m.perm_truth i 2 → 0 < m.perm_truth i 3 →
        (∀ c, pb i c = m.perm_truth i c) → insideTarget H m pb i = 1) ∧
    (H.rezoom_change_loss = RezoomChangeLoss.falsy → ∀ i,
      insideTarget H m pb i = if 0 < m.classes i then 1 else 0) := by
  refine ⟨?_, ?_, ?_, ?_⟩
  · cases hr : H.reregress <;>
      simp [lossFromMatch, deltaConfsLoss, hz, hr]
  · intro h i
    simp [insideTarget, h]
  · intro h
    refine ⟨fun i => by simp [insideTarget, h], fun i hw hh hext => ?_⟩
    have hpb : pb i = m.perm_truth i := funext hext
    simp only [insideTarget, h]
    rw [hpb, iouVal_self _ hw hh]
    norm_num
  · intro h i
    simp [insideTarget, h]

/-- C4 (witness): in configuration `Hrz` (policy `iou`), the `inside`
target is 1 for a slot whose predicted box coincides with the matched unit
box. -/
theorem C4_witness :
    Hrz.use_rezoom = true ∧
    Hrz.rezoom_change_loss = RezoomChangeLoss.iou ∧
    insideTarget Hrz mrz boxP ⟨0, Nat.one_pos⟩ = 1 :=
  ⟨rfl, rfl,
    ((C4_delta_confs Hrz rfl mrz boxP zl1 zl1 zb1 []).2.2.1 rfl).2
      ⟨0, Nat.one_pos⟩ one_pos one_pos (fun c => rfl)⟩

/-- C8: the reshape/transpose pipeline of `_rezoom` preserves cell and
slot order: for every cell `i` and slot `k`, position `o * ch + c` of row
`(i, k)` of the output holds the channel-`c` bilinear sample for offset
pair number `o` (in loop-enumeration order, `w`-major); in particular with
a 1 x 1 offset grid the row `(i, k)` is exactly the bilinear sample at the
predicted center for that cell and slot. -/
theorem C8_rezoom_order (ws hs : List ℝ) (n L ch : ℕ)
    (sample : ℝ → ℝ → Fin n → Fin L → Fin ch → ℝ)
    (i : Fin n) (k : Fin L) (o : Fin (ws.length * hs.length))
    (c : Fin ch) :
    (rezoomList ws hs n L ch sample).getD
      ((i.1 * L + k.1) * (ws.length * hs.length * ch) +
        (o.1 * ch + c.1)) 0 =
      sample (offsetPair ws hs o).1 (offsetPair ws hs o).2 i k c ∧
    ∀ (w0 h0 : ℝ) (sample2 : ℝ → ℝ → Fin n → Fin L → Fin ch → ℝ),
      (rezoomList [w0] [h0] n L ch sample2).getD
        ((i.1 * L + k.1) * ch + c.1) 0 = sample2 w0 h0 i k c := by
  refine ⟨rezoomList_getD ws hs n L ch sample i k o c, ?_⟩
  intro w0 h0 s2
  have h := rezoomList_getD [w0] [h0] n L ch s2 i k ⟨0, by norm_num⟩ c
  simpa [offsetPair, decode2] using h

end KittiBox
